import Mathlib

set_option maxRecDepth 8000

/-!
Shallow embedding of the DailyDash news aggregator (`app.py`).

The embedded core covers:
* `RSSAdapter.adapt` — the feed normalizer (lines 87–116);
* `NewsFetcher.fetch_all_sources` / `runCycle` — the aggregation cycle
  (lines 142–165), with the feed fetch modelled as a function from a
  source to either a list of raw entries or a raised error;
* the lock-protected article cache (`self.articles` guarded by
  `self.lock`, lines 160–169), modelled as a trace of atomic
  publish/read operations — each Python critical section is one step;
* the three filter strategies (lines 179–199).

Python strings are Lean `String`s (both are sequences of characters;
`s[:200]` is `String.take s 200`, `str.lower()` is `String.toLower`,
`str.strip()` is `String.trim`, `str.split(',')` is
`String.splitOn ","`, substring test `q in s` is `containsList`
below).  The float timestamp returned by `time.mktime` is modelled as
an integer number of seconds, which preserves the ordering used by the
sort.  Missing keys of a feedparser entry are `Option.none`.
-/

/-- A normalized article: the dictionary built by `RSSAdapter.adapt`. -/
structure Article where
  title : String
  summary : String
  link : String
  date : String
  timestamp : Int
  source : String
  category : String
  image : String
deriving Repr, DecidableEq

/-- One `{type, href}` item of a feedparser entry's `links` list. -/
structure EntryLink where
  type : String
  href : String
deriving Repr, DecidableEq

/-- A raw feedparser entry, with exactly the fields `RSSAdapter.adapt`
reads.  `media_content` and `media_thumbnail` hold the `url` of the
first item of the corresponding feedparser list when the key is
present (`entry.media_content[0]['url']`); `links = none` models the
absence of the `links` key; `published_parsed` / `updated_parsed` hold
the epoch seconds that `time.mktime` produces from the parsed struct
when the attribute is present and non-`None`. -/
structure Entry where
  title : Option String := none
  summary : Option String := none
  link : Option String := none
  published : Option String := none
  published_parsed : Option Int := none
  updated_parsed : Option Int := none
  media_content : Option String := none
  media_thumbnail : Option String := none
  links : Option (List EntryLink) := none
deriving Repr, DecidableEq

namespace RSSAdapter

/-- The placeholder image URL constant (line 90 of `app.py`). -/
def placeholderImage : String := "https://via.placeholder.com/300?text=News"

/-- `RSSAdapter.adapt(entry, source_name, source_category)`
(lines 88–116 of `app.py`), translated clause by clause:
the `if/elif` chain choosing `image`, the `published_parsed` /
`updated_parsed` fallback for `timestamp`, and the `entry.get`
defaults for the remaining fields.  The `for`/`break` loop over
`entry.links` is the first link whose `type` starts with `"image/"`,
i.e. `List.find?`. -/
def adapt (entry : Entry) (source_name source_category : String) : Article :=
  let image :=
    match entry.media_content with
    | some u => u
    | none =>
      match entry.media_thumbnail with
      | some u => u
      | none =>
        match entry.links with
        | some ls =>
          match ls.find? (fun l => l.type.startsWith "image/") with
          | some l => l.href
          | none => placeholderImage
        | none => placeholderImage
  let timestamp :=
    match entry.published_parsed with
    | some t => t
    | none =>
      match entry.updated_parsed with
      | some t => t
      | none => 0
  { title := entry.title.getD "No Title"
    summary := (entry.summary.getD "No summary available.").take 200 ++ "..."
    link := entry.link.getD "#"
    date := entry.published.getD ""
    timestamp := timestamp
    source := source_name
    category := source_category
    image := image }

/-- The spec's description of image resolution, written from its
words: media-content field, then media-thumbnail field, then the first
link whose type begins with `"image/"`, then the placeholder constant.
Used to state the refinement claim about `adapt`'s `image` field. -/
def resolveImageSpec (entry : Entry) : String :=
  (entry.media_content <|>
    (entry.media_thumbnail <|>
      ((entry.links.getD []).find? (fun l => l.type.startsWith "image/")).map
        EntryLink.href)).getD placeholderImage

end RSSAdapter

/-- A row of the `sources` table: `{name, url, category}` (the `id`
column is not read by the aggregation cycle). -/
structure Source where
  name : String
  url : String
  category : String
deriving Repr, DecidableEq

namespace NewsFetcher

/-- The outcome of `feedparser.parse(source['url'])` for one source:
either the list of raw entries of the feed, or a raised exception
(carried as a message).  The aggregation cycle takes such a fetch
function as its environment. -/
def Fetch : Type := Source → Except String (List Entry)

/-- The articles one source contributes to a cycle: the body of the
per-source `try`/`except` of lines 151–156 of `app.py`.  A source
whose fetch raises is caught, logged and contributes nothing. -/
def sourceArticles (fetch : Fetch) (s : Source) : List Article :=
  match fetch s with
  | .ok entries => entries.map (fun e => RSSAdapter.adapt e s.name s.category)
  | .error _ => []

/-- The comparison used by
`new_articles.sort(key=lambda x: x['timestamp'], reverse=True)`:
an article precedes another when its timestamp is at least as large. -/
def tsDesc (a b : Article) : Bool := b.timestamp ≤ a.timestamp

/-- Whether the fetch of a source succeeds (its `try` body runs to
completion rather than raising). -/
def fetchOk (fetch : Fetch) (s : Source) : Bool :=
  match fetch s with
  | .ok _ => true
  | .error _ => false

/-- The pure core of one aggregation cycle
(`NewsFetcher.fetch_all_sources`, lines 149–158 of `app.py`): collect
the adapted entries of every source in order, sources that raise
contributing nothing, then sort by timestamp descending. -/
def runCycle (fetch : Fetch) (sources : List Source) : List Article :=
  (sources.flatMap (sourceArticles fetch)).mergeSort tsDesc

/-- `NewsFetcher.fetch_all_sources` as a transformer of the cached
article list (lines 142–165 of `app.py`).  `registry` is the outcome
of reading the `sources` table; if it (or anything else inside the
outer `try`) raises, the `except` of line 164 logs and returns without
assigning `self.articles`, so the cache is returned unchanged.
Otherwise the freshly built sorted list replaces the cache. -/
def fetch_all_sources (registry : Except String (List Source)) (fetch : Fetch)
    (cache : List Article) : List Article :=
  match registry with
  | .error _ => cache
  | .ok sources => runCycle fetch sources

/-- An atomic operation on the lock-protected cache: either the
publish `self.articles = new_articles` performed inside `with
self.lock` (line 160–161), or a `get_cached_articles` read, which
copies the current list inside the lock (lines 167–169).  Because both
critical sections hold the same lock, each operation is one indivisible
step of the trace. -/
inductive CacheOp where
  | publish (articles : List Article)
  | read
deriving Repr, DecidableEq

/-- The value each `read` of a trace returns, starting from cache
contents `st`: a read returns (a deep copy of) the current list, a
publish replaces the current list. -/
def readResults (st : List Article) : List CacheOp → List (List Article)
  | [] => []
  | .publish xs :: ops => readResults xs ops
  | .read :: ops => st :: readResults st ops

/-- The article sets published during a trace, in order. -/
def publishes : List CacheOp → List (List Article)
  | [] => []
  | .publish xs :: ops => xs :: publishes ops
  | .read :: ops => publishes ops

end NewsFetcher

/-- Python's substring test `q in s` on lists of characters:
some suffix of `s` starts with `q`. -/
def startsWithList : List Char → List Char → Bool
  | _, [] => true
  | [], _ :: _ => false
  | c :: cs, d :: ds => c == d && startsWithList cs ds

/-- `containsList s q` is Python's `q in s` for character lists. -/
def containsList : List Char → List Char → Bool
  | [], q => startsWithList [] q
  | c :: cs, q => startsWithList (c :: cs) q || containsList cs q

namespace CategoryStrategy

/-- `CategoryStrategy.filter` (lines 180–183 of `app.py`): `"All"` is
a pass-through, otherwise keep articles whose lowered category equals
the lowered requested category. -/
def filter (articles : List Article) (category : String) : List Article :=
  if category == "All" then articles
  else articles.filter (fun a => a.category.toLower == category.toLower)

end CategoryStrategy

namespace PreferenceStrategy

/-- `PreferenceStrategy.filter` (lines 186–190 of `app.py`): an empty
(falsy) preference string is a pass-through, otherwise split on
commas, strip and lower each item, and keep articles whose lowered
category appears in the resulting list. -/
def filter (articles : List Article) (user_prefs : String) : List Article :=
  if user_prefs.isEmpty then articles
  else
    let prefs_list := (user_prefs.splitOn ",").map (fun p => p.trim.toLower)
    articles.filter (fun a => prefs_list.contains a.category.toLower)

end PreferenceStrategy

namespace SearchStrategy

/-- `SearchStrategy.filter` (lines 194–199 of `app.py`): an empty
(falsy) query is a pass-through, otherwise keep articles whose lowered
title or lowered summary contains the lowered query as a substring. -/
def filter (articles : List Article) (query : String) : List Article :=
  if query.isEmpty then articles
  else
    let q := query.toLower
    articles.filter (fun a =>
      containsList a.title.toLower.toList q.toList ||
      containsList a.summary.toLower.toList q.toList)

end SearchStrategy

/-! ## Theorems -/

/-- C3: for a raw entry whose summary is longer than 200 characters,
the normalized summary is exactly the first 200 characters followed by
`"..."`; and for every entry (any summary length, or a missing
summary) the normalized summary ends with the appended ellipsis. -/
theorem RSSAdapter.summary_truncation (entry : Entry) (n c s : String)
    (hs : entry.summary = some s) (hlen : 200 < s.length) :
    (RSSAdapter.adapt entry n c).summary = s.take 200 ++ "..." ∧
    ∀ (e : Entry) (n' c' : String), ∃ t, (RSSAdapter.adapt e n' c').summary = t ++ "..." := by
  constructor
  · simp [RSSAdapter.adapt, hs]
  · intro e n' c'
    exact ⟨(e.summary.getD "No summary available.").take 200, rfl⟩

/-- Witness for C3 at a concrete 201-character summary. -/
theorem RSSAdapter.summary_truncation_witness :
    (RSSAdapter.adapt { summary := some (String.mk (List.replicate 201 'x')) } "s" "c").summary
      = (String.mk (List.replicate 201 'x')).take 200 ++ "..." := by
  refine (RSSAdapter.summary_truncation _ "s" "c" _ rfl ?_).1
  show 200 < (List.replicate 201 'x').length
  simp

/-- C4: `adapt` is total (it is a Lean function, so it never fails),
and each missing field is replaced by its default: title `"No Title"`,
summary `"No summary available."` (to which the unconditional ellipsis
of the truncation step is then appended), link `"#"`, timestamp `0`. -/
theorem RSSAdapter.adapt_defaults (entry : Entry) (n c : String) :
    (entry.title = none → (RSSAdapter.adapt entry n c).title = "No Title") ∧
    (entry.summary = none →
      (RSSAdapter.adapt entry n c).summary = "No summary available." ++ "...") ∧
    (entry.link = none → (RSSAdapter.adapt entry n c).link = "#") ∧
    (entry.published_parsed = none → entry.updated_parsed = none →
      (RSSAdapter.adapt entry n c).timestamp = 0) := by
  refine ⟨fun h => ?_, fun h => ?_, fun h => ?_, fun h h' => ?_⟩
  · simp [RSSAdapter.adapt, h]
  · simp only [RSSAdapter.adapt, h, Option.getD_none]
    decide
  · simp [RSSAdapter.adapt, h]
  · simp [RSSAdapter.adapt, h, h']

/-- Witness for C4 at the entry with every field missing. -/
theorem RSSAdapter.adapt_defaults_witness :
    (RSSAdapter.adapt {} "Src" "Cat").title = "No Title" ∧
    (RSSAdapter.adapt {} "Src" "Cat").summary = "No summary available." ++ "..." ∧
    (RSSAdapter.adapt {} "Src" "Cat").link = "#" ∧
    (RSSAdapter.adapt {} "Src" "Cat").timestamp = 0 := by
  obtain ⟨h1, h2, h3, h4⟩ := RSSAdapter.adapt_defaults {} "Src" "Cat"
  exact ⟨h1 rfl, h2 rfl, h3 rfl, h4 rfl rfl⟩

/-- C7: each filter is a pass-through at its sentinel value: category
`"All"`, empty preference string, empty search query. -/
theorem filters_pass_through (articles : List Article) :
    CategoryStrategy.filter articles "All" = articles ∧
    PreferenceStrategy.filter articles "" = articles ∧
    SearchStrategy.filter articles "" = articles := by
  exact ⟨rfl, rfl, rfl⟩

/-- C9: the image of a normalized article is resolved in the spec's
order: media-content field, then media-thumbnail field, then the first
entry link whose type begins with `"image/"`, then the placeholder
constant. -/
theorem RSSAdapter.image_resolution_order (entry : Entry) (n c : String) :
    (RSSAdapter.adapt entry n c).image = RSSAdapter.resolveImageSpec entry := by
  obtain ⟨t, s, l, p, pp, up, mc, mt, ls⟩ := entry
  cases mc with
  | some u => rfl
  | none =>
    cases mt with
    | some u => rfl
    | none =>
      cases ls with
      | none => rfl
      | some links =>
        cases h : links.find? (fun lk => lk.type.startsWith "image/") with
        | some lk =>
          simp [RSSAdapter.adapt, RSSAdapter.resolveImageSpec, h, HOrElse.hOrElse,
            OrElse.orElse, Option.orElse]
        | none =>
          simp [RSSAdapter.adapt, RSSAdapter.resolveImageSpec, h, HOrElse.hOrElse,
            OrElse.orElse, Option.orElse]

/-- C2: the article list produced by one aggregation cycle is sorted
with `timestamp` non-increasing across consecutive elements. -/
theorem NewsFetcher.cycle_sorted (fetch : NewsFetcher.Fetch) (sources : List Source)
    (cache : List Article) :
    (NewsFetcher.fetch_all_sources (.ok sources) fetch cache).Pairwise
      (fun a b => b.timestamp ≤ a.timestamp) := by
  show ((sources.flatMap (NewsFetcher.sourceArticles fetch)).mergeSort
      NewsFetcher.tsDesc).Pairwise (fun a b => b.timestamp ≤ a.timestamp)
  have h := List.sorted_mergeSort
    (fun (a b c : Article) (hab : NewsFetcher.tsDesc a b = true)
        (hbc : NewsFetcher.tsDesc b c = true) => by
      simp only [NewsFetcher.tsDesc, decide_eq_true_eq] at hab hbc ⊢
      omega)
    (fun (a b : Article) => by
      simp only [NewsFetcher.tsDesc, Bool.or_eq_true, decide_eq_true_eq]
      omega)
    (sources.flatMap (NewsFetcher.sourceArticles fetch))
  exact h.imp (fun hab => by simpa [NewsFetcher.tsDesc] using hab)

/-- C6: if reading the source registry (or anything else ahead of the
publish) raises, `fetch_all_sources` leaves the cached article list
unchanged. -/
theorem NewsFetcher.cycle_failure_preserves_cache (e : String)
    (fetch : NewsFetcher.Fetch) (cache : List Article) :
    NewsFetcher.fetch_all_sources (.error e) fetch cache = cache := rfl

/-- C8: for a category other than `"All"`, the category filter keeps
exactly the articles whose `category` equals the requested one under
case-insensitive comparison. -/
theorem CategoryStrategy.filter_case_insensitive (articles : List Article)
    (category : String) (h : category ≠ "All") (a : Article) :
    a ∈ CategoryStrategy.filter articles category ↔
      a ∈ articles ∧ a.category.toLower = category.toLower := by
  have hne : (category == "All") = false := by
    simp only [beq_eq_false_iff_ne, ne_eq]
    exact h
  simp [CategoryStrategy.filter, hne, List.mem_filter]

/-- The article of the spec's scenario: one entry titled
"AI breakthrough" from a source of category `"Technology"`. -/
def techArticle : Article :=
  { title := "AI breakthrough", summary := "An article.", link := "http://a",
    date := "Mon", timestamp := 100, source := "Tech",
    category := "Technology", image := "img" }

/-- Witness for C8: filtering with the mixed-case value `"technology"`
still returns the article whose category is `"Technology"`. -/
theorem CategoryStrategy.filter_case_insensitive_witness :
    techArticle ∈ CategoryStrategy.filter [techArticle] "technology" := by
  exact (CategoryStrategy.filter_case_insensitive [techArticle] "technology"
    (by decide) techArticle).2
    ⟨by simp, by simp only [techArticle, String.toLower, String.map_eq]; decide⟩

/-- A source whose fetch raises contributes no articles (its
`except` branch runs instead of the entry loop). -/
theorem NewsFetcher.sourceArticles_of_failed (fetch : NewsFetcher.Fetch) (s : Source)
    (h : NewsFetcher.fetchOk fetch s = false) :
    NewsFetcher.sourceArticles fetch s = [] := by
  unfold NewsFetcher.fetchOk at h
  unfold NewsFetcher.sourceArticles
  cases hfs : fetch s with
  | ok es => rw [hfs] at h; simp at h
  | error e => rfl

/-- The pre-sort working list of a cycle only contains the successful
sources' articles: failed sources can be dropped from the source list
without changing it. -/
theorem NewsFetcher.flatMap_filter_ok (fetch : NewsFetcher.Fetch) (sources : List Source) :
    sources.flatMap (NewsFetcher.sourceArticles fetch)
      = (sources.filter (NewsFetcher.fetchOk fetch)).flatMap
          (NewsFetcher.sourceArticles fetch) := by
  induction sources with
  | nil => rfl
  | cons s ss ih =>
    by_cases hs : NewsFetcher.fetchOk fetch s = true
    · simp [List.flatMap_cons, List.filter_cons, hs, ih]
    · have hs' : NewsFetcher.fetchOk fetch s = false := by
        cases hval : NewsFetcher.fetchOk fetch s
        · rfl
        · exact absurd hval hs
      simp [List.flatMap_cons, List.filter_cons, hs',
        NewsFetcher.sourceArticles_of_failed fetch s hs', ih]

/-- C5: a cycle publishes exactly the sorted articles of the
non-failing sources — removing the failing sources from the source
list, wherever they appear, yields the same published list — and a
cycle in which every source fails publishes the empty list. -/
theorem NewsFetcher.source_isolation (fetch : NewsFetcher.Fetch) (sources : List Source) :
    NewsFetcher.runCycle fetch sources
        = NewsFetcher.runCycle fetch (sources.filter (NewsFetcher.fetchOk fetch)) ∧
    ((∀ s ∈ sources, NewsFetcher.fetchOk fetch s = false) →
      NewsFetcher.runCycle fetch sources = []) := by
  constructor
  · unfold NewsFetcher.runCycle
    rw [NewsFetcher.flatMap_filter_ok]
  · intro hall
    have hnil : sources.filter (NewsFetcher.fetchOk fetch) = [] := by
      rw [List.filter_eq_nil_iff]
      intro s hsmem
      simp [hall s hsmem]
    unfold NewsFetcher.runCycle
    rw [NewsFetcher.flatMap_filter_ok, hnil]
    simp

/-- A fetch environment for concrete instances: the source named
`"bad"` raises, every other source returns one raw entry. -/
def demoFetch : NewsFetcher.Fetch := fun s =>
  if s.name == "bad" then .error "boom"
  else .ok [{ title := some "AI breakthrough", published_parsed := some 100 }]

/-- A source that always fails under `demoFetch`. -/
def demoBad : Source := { name := "bad", url := "http://bad", category := "Sports" }

/-- Witness for C5: a cycle over a single failing source publishes the
empty list. -/
theorem NewsFetcher.source_isolation_witness :
    NewsFetcher.runCycle demoFetch [demoBad] = [] := by
  exact (NewsFetcher.source_isolation demoFetch [demoBad]).2 (by decide)

/-- The ArticleSet invariant: `timestamp` non-increasing across
consecutive elements. -/
def sortedByTs (l : List Article) : Prop :=
  l.Pairwise (fun a b => b.timestamp ≤ a.timestamp)

/-- The category filter returns a subsequence of its input. -/
theorem categoryFilter_sublist (articles : List Article) (v : String) :
    (CategoryStrategy.filter articles v).Sublist articles := by
  unfold CategoryStrategy.filter
  split
  · exact List.Sublist.refl _
  · exact List.filter_sublist _

/-- The preference filter returns a subsequence of its input. -/
theorem preferenceFilter_sublist (articles : List Article) (p : String) :
    (PreferenceStrategy.filter articles p).Sublist articles := by
  unfold PreferenceStrategy.filter
  split
  · exact List.Sublist.refl _
  · exact List.filter_sublist _

/-- The search filter returns a subsequence of its input. -/
theorem searchFilter_sublist (articles : List Article) (q : String) :
    (SearchStrategy.filter articles q).Sublist articles := by
  unfold SearchStrategy.filter
  split
  · exact List.Sublist.refl _
  · exact List.filter_sublist _

/-- C10: each filter returns a subsequence of its input (retained
articles keep their relative order), so each filter — and the
route's compositions, a category or preference filter followed by the
search filter — maps a list sorted by timestamp descending to a list
still sorted by timestamp descending. -/
theorem filters_preserve_order (articles : List Article) (v p q : String)
    (h : sortedByTs articles) :
    (CategoryStrategy.filter articles v).Sublist articles ∧
    (PreferenceStrategy.filter articles p).Sublist articles ∧
    (SearchStrategy.filter articles q).Sublist articles ∧
    sortedByTs (CategoryStrategy.filter articles v) ∧
    sortedByTs (PreferenceStrategy.filter articles p) ∧
    sortedByTs (SearchStrategy.filter articles q) ∧
    sortedByTs (SearchStrategy.filter (CategoryStrategy.filter articles v) q) ∧
    sortedByTs (SearchStrategy.filter (PreferenceStrategy.filter articles p) q) := by
  refine ⟨categoryFilter_sublist articles v, preferenceFilter_sublist articles p,
    searchFilter_sublist articles q,
    List.Pairwise.sublist (categoryFilter_sublist articles v) h,
    List.Pairwise.sublist (preferenceFilter_sublist articles p) h,
    List.Pairwise.sublist (searchFilter_sublist articles q) h,
    List.Pairwise.sublist (searchFilter_sublist _ q)
      (List.Pairwise.sublist (categoryFilter_sublist articles v) h),
    List.Pairwise.sublist (searchFilter_sublist _ q)
      (List.Pairwise.sublist (preferenceFilter_sublist articles p) h)⟩

/-- Witness for C10 on a concrete singleton list. -/
theorem filters_preserve_order_witness :
    sortedByTs (SearchStrategy.filter (CategoryStrategy.filter [techArticle] "All") "") :=
  (filters_preserve_order [techArticle] "All" "" "" (by simp [sortedByTs])).2.2.2.2.2.2.1

/-- When no publish occurs in a trace, every read returns the starting
cache contents. -/
theorem NewsFetcher.readResults_const (st : List Article)
    (ops : List NewsFetcher.CacheOp) (h : NewsFetcher.publishes ops = []) :
    ∀ r ∈ NewsFetcher.readResults st ops, r = st := by
  induction ops with
  | nil => simp [NewsFetcher.readResults]
  | cons op ops ih =>
    cases op with
    | publish xs => simp [NewsFetcher.publishes] at h
    | read =>
      intro r hr
      simp only [NewsFetcher.readResults, List.mem_cons] at hr
      rcases hr with rfl | hr
      · rfl
      · exact ih (by simpa [NewsFetcher.publishes] using h) r hr

/-- C1: in any trace of lock-atomic cache operations that contains
exactly one publish of `post`, starting from cache contents `pre`,
every concurrent read returns either the complete pre-publish list or
the complete post-publish list — never a mixture. -/
theorem NewsFetcher.cache_atomic_snapshot (pre post : List Article)
    (ops : List NewsFetcher.CacheOp) (h : NewsFetcher.publishes ops = [post]) :
    ∀ r ∈ NewsFetcher.readResults pre ops, r = pre ∨ r = post := by
  induction ops generalizing pre with
  | nil => simp [NewsFetcher.readResults]
  | cons op ops ih =>
    cases op with
    | publish xs =>
      simp only [NewsFetcher.publishes, List.cons.injEq] at h
      obtain ⟨rfl, h2⟩ := h
      intro r hr
      right
      exact NewsFetcher.readResults_const xs ops h2 r
        (by simpa [NewsFetcher.readResults] using hr)
    | read =>
      intro r hr
      simp only [NewsFetcher.readResults, List.mem_cons] at hr
      rcases hr with rfl | hr
      · exact Or.inl rfl
      · exact ih pre (by simpa [NewsFetcher.publishes] using h) r hr

/-- Witness for C1: a trace reading before and after a single publish,
evaluated at the read issued after it. -/
theorem NewsFetcher.cache_atomic_snapshot_witness :
    [techArticle] = ([] : List Article) ∨ [techArticle] = [techArticle] :=
  NewsFetcher.cache_atomic_snapshot [] [techArticle]
    [NewsFetcher.CacheOp.read, NewsFetcher.CacheOp.publish [techArticle],
      NewsFetcher.CacheOp.read]
    rfl [techArticle] (by simp [NewsFetcher.readResults])
